import Mathlib

/-!
# Verification of the keras-cv release builder and resource locator

A shallow embedding of the two source files of this repository:

* `pip_build.py` — the release builder (`parse_version`, `nightly_overrides`,
  `locate_wheel`, `build`, the `__main__` entry point);
* `keras_cv/src/utils/resource_loader.py` — the resource locator
  (`get_path_to_datafile`, `LazySO`, `abi_is_compatible`).

Python strings are modelled as Lean `String`/`List Char`; the filesystem is
modelled explicitly (file contents as strings, directory listings as lists);
external subprocesses are modelled by their exit codes and their effect on the
wheels directory; `datetime.now()` is modelled as an explicit parameter.
Python regular-expression matching for the one pattern used by the code
(`__version__\s*=\s*["\x27](.+?)["\x27]`) is implemented directly: the
pattern has no backtracking choice points (`\s*` is followed by a character
that is never whitespace, and the lazy group `(.+?)` stops at the first
closing quote), so a deterministic scanner is an exact model.  `\s` is
modelled as ASCII whitespace and `.` as any character except a newline,
as in CPython `re` for the ASCII file contents at hand.
-/

/-! ## Character classes used by the pattern `__version__\s*=\s*["\x27](.+?)["\x27]` -/

/-- Python `\s` (ASCII range): space, tab, newline, carriage return,
vertical tab, form feed. -/
def pySpace (c : Char) : Bool :=
  c == ' ' || c == '\t' || c == '\n' || c == '\r' || c == '\x0b' || c == '\x0c'

/-- The character class `["\x27]`: a double or single quote. -/
def isQuoteChar (c : Char) : Bool :=
  c == '\x22' || c == '\x27'

/-- The literal part `__version__` of the pattern. -/
def versionLit : List Char := "__version__".data

/-- Match a literal list of characters at the head of the input, returning the
remainder on success. -/
def dropLit : List Char → List Char → Option (List Char)
  | [], cs => some cs
  | _ :: _, [] => none
  | l :: ls, c :: cs => if c == l then dropLit ls cs else none

/-- Greedily consume `\s*`.  In the pattern the next obligatory character
(`=`, resp. a quote) is never itself whitespace, so the greedy run is the only
run the Python engine can use. -/
def skipSpacesL : List Char → List Char
  | [] => []
  | c :: cs => if pySpace c then skipSpacesL cs else c :: cs

/-- The lazy group `(.+?)` followed by the class `["\x27]`: the shortest
non-empty run of non-newline characters terminated by a quote.  Returns the
group and the remainder after the closing quote. -/
def grabLazy : List Char → Option (List Char × List Char)
  | [] => none
  | c :: cs =>
    if c == '\n' then none
    else
      match cs with
      | [] => none
      | d :: ds =>
        if isQuoteChar d then some ([c], ds)
        else
          match grabLazy cs with
          | some (g, r) => some (c :: g, r)
          | none => none

/-- Attempt the whole pattern anchored at the head of the input.  On success,
returns the captured group and the remainder after the full match. -/
def matchVersionAt (cs : List Char) : Option (List Char × List Char) :=
  match dropLit versionLit cs with
  | none => none
  | some r1 =>
    match skipSpacesL r1 with
    | '=' :: r3 =>
      match skipSpacesL r3 with
      | q :: r5 => if isQuoteChar q then grabLazy r5 else none
      | [] => none
    | _ => none

/-- `re.search`: try the pattern at each start position, left to right. -/
def searchVersion : List Char → Option (List Char × List Char)
  | [] => none
  | c :: cs =>
    match matchVersionAt (c :: cs) with
    | some r => some r
    | none => searchVersion cs

/-- `parse_version` (pip_build.py): extract the quoted `__version__` string,
or raise `ValueError` when the pattern does not occur in the file. -/
def parse_version (content : String) : Except String String :=
  match searchVersion content.data with
  | some (g, _) => Except.ok (String.mk g)
  | none => Except.error "Unable to parse __version__ from version_utils.py"

example : parse_version "__version__ = \x220.9.0\x22" = Except.ok "0.9.0" := rfl
example : parse_version "version = \x220.9.0\x22" =
    Except.error "Unable to parse __version__ from version_utils.py" := rfl
example : parse_version "x = 1\n__version__=\x271.2.3\x27\n" = Except.ok "1.2.3" := rfl

/-! ## Termination facts for the scanners -/

theorem dropLit_length {l cs r : List Char} (h : dropLit l cs = some r) :
    r.length + l.length = cs.length := by
  induction l generalizing cs with
  | nil => simp [dropLit] at h; simp [h]
  | cons a as ih =>
    cases cs with
    | nil => simp [dropLit] at h
    | cons c cs' =>
      simp only [dropLit] at h
      split at h
      · have := ih h; simp [List.length_cons]; omega
      · exact absurd h (by simp)

theorem skipSpacesL_length_le (cs : List Char) : (skipSpacesL cs).length ≤ cs.length := by
  induction cs with
  | nil => simp [skipSpacesL]
  | cons c cs' ih =>
    simp only [skipSpacesL]
    split
    · exact Nat.le_trans ih (Nat.le_succ _)
    · simp

theorem grabLazy_length_lt {cs : List Char} : ∀ {g r : List Char},
    grabLazy cs = some (g, r) → r.length < cs.length := by
  induction cs with
  | nil => intro g r h; simp [grabLazy] at h
  | cons c cs' ih =>
    intro g r h
    simp only [grabLazy] at h
    by_cases hc : (c == '\n') = true
    · rw [if_pos hc] at h; simp at h
    · rw [if_neg hc] at h
      cases cs' with
      | nil => simp at h
      | cons d ds =>
        dsimp only at h
        by_cases hd : isQuoteChar d = true
        · rw [if_pos hd] at h
          simp only [Option.some.injEq, Prod.mk.injEq] at h
          obtain ⟨hg, hr⟩ := h
          subst hr
          simp only [List.length_cons]
          omega
        · rw [if_neg hd] at h
          cases hgl : grabLazy (d :: ds) with
          | none => rw [hgl] at h; simp at h
          | some p =>
            obtain ⟨g', r'⟩ := p
            rw [hgl] at h
            have hlt := ih hgl
            simp only [Option.some.injEq, Prod.mk.injEq] at h
            obtain ⟨hg, hr⟩ := h
            subst hr
            simp only [List.length_cons] at hlt ⊢
            omega

theorem matchVersionAt_length_lt {cs : List Char} {g r : List Char}
    (h : matchVersionAt cs = some (g, r)) : r.length < cs.length := by
  simp only [matchVersionAt] at h
  split at h
  · exact absurd h (by simp)
  next r1 hdrop =>
    split at h
    next r3 hskip =>
      split at h
      next q r5 hskip2 =>
        split at h
        · have h5 : r.length < r5.length := grabLazy_length_lt h
        -- chain the length bounds back through the two whitespace skips
        -- and the literal
          have e1 : r1.length + versionLit.length = cs.length := dropLit_length hdrop
          have l1 : (skipSpacesL r1).length ≤ r1.length := skipSpacesL_length_le r1
          rw [hskip] at l1
          have l2 : (skipSpacesL r3).length ≤ r3.length := skipSpacesL_length_le r3
          rw [hskip2] at l2
          simp [List.length_cons] at l1 l2
          have : versionLit.length = 11 := rfl
          omega
        · exact absurd h (by simp)
      next => exact absurd h (by simp)
    next => exact absurd h (by simp)

/-- `re.sub` for the version pattern: replace every non-overlapping match,
left to right, by the fixed replacement text `repl` (the replacement used by
the code contains no backreferences). -/
def subVersion (repl : List Char) : List Char → List Char
  | [] => []
  | c :: cs =>
    match h : matchVersionAt (c :: cs) with
    | some (_, rest) => repl ++ subVersion repl rest
    | none => c :: subVersion repl cs
termination_by cs => cs.length
decreasing_by
  · exact matchVersionAt_length_lt h
  · simp [List.length_cons]

/-- Python `str.replace` (as used with the non-empty pattern
`name="keras-cv"`): replace every non-overlapping occurrence, left to
right. -/
def replaceAll (pat repl : List Char) : List Char → List Char
  | [] => []
  | c :: cs =>
    if h : pat ≠ [] ∧ pat.isPrefixOf (c :: cs) then
      repl ++ replaceAll pat repl (List.drop pat.length (c :: cs))
    else
      c :: replaceAll pat repl cs
termination_by cs => cs.length
decreasing_by
  · have : pat.length ≥ 1 := by
      cases hp : pat with
      | nil => exact absurd hp h.1
      | cons a as => simp
    simp [List.length_cons, List.length_drop]
    omega
  · simp [List.length_cons]

/-! Propositional equations for the two well-founded definitions. -/

theorem subVersion_nil (repl : List Char) : subVersion repl [] = [] := by
  rw [subVersion]

theorem subVersion_cons_match {c : Char} {cs g rest : List Char} (repl : List Char)
    (h : matchVersionAt (c :: cs) = some (g, rest)) :
    subVersion repl (c :: cs) = repl ++ subVersion repl rest := by
  rw [subVersion, h]

theorem subVersion_cons_nomatch {c : Char} {cs : List Char} (repl : List Char)
    (h : matchVersionAt (c :: cs) = none) :
    subVersion repl (c :: cs) = c :: subVersion repl cs := by
  rw [subVersion, h]

theorem replaceAll_nil (pat repl : List Char) : replaceAll pat repl [] = [] := by
  rw [replaceAll]

theorem replaceAll_cons_pos {pat : List Char} {c : Char} {cs : List Char} (repl : List Char)
    (hne : pat ≠ []) (hpre : pat.isPrefixOf (c :: cs)) :
    replaceAll pat repl (c :: cs) = repl ++ replaceAll pat repl (List.drop pat.length (c :: cs)) := by
  rw [replaceAll, dif_pos ⟨hne, hpre⟩]

theorem replaceAll_cons_neg {pat : List Char} {c : Char} {cs : List Char} (repl : List Char)
    (h : ¬ (pat ≠ [] ∧ pat.isPrefixOf (c :: cs))) :
    replaceAll pat repl (c :: cs) = c :: replaceAll pat repl cs := by
  rw [replaceAll, dif_neg h]

/-! ## The release builder (`pip_build.py`)

The builder mutates two files (`keras_cv/src/version_utils.py` and
`setup.py`), runs three external commands inside the
`nightly_overrides` context manager, and then collects a wheel.  Files are
modelled by their contents; each write is recorded in order, so that both the
content seen during the build and the content left on disk afterwards are
explicit.  `datetime.datetime.now().strftime("%Y%m%d%H")` is modelled by an
explicit clock value rendered to digits. -/

def package_name : String := "keras_cv"
def dist_directory : String := "dist"
def wheels_directory : String := "wheels"

/-- A clock reading, as used by `datetime.datetime.now()`. -/
structure DateTime where
  year : Nat
  month : Nat
  day : Nat
  hour : Nat
deriving DecidableEq

/-- Two zero-padded decimal digits, as produced by `%m`, `%d`, `%H` for
in-range field values. -/
def two_digits (n : Nat) : List Char := [Nat.digitChar (n / 10 % 10), Nat.digitChar (n % 10)]

/-- Four zero-padded decimal digits, as produced by `%Y` for years below
10000. -/
def four_digits (n : Nat) : List Char :=
  [Nat.digitChar (n / 1000 % 10), Nat.digitChar (n / 100 % 10),
   Nat.digitChar (n / 10 % 10), Nat.digitChar (n % 10)]

/-- `datetime.now().strftime("%Y%m%d%H")`. -/
def strftime_YmdH (d : DateTime) : String :=
  String.mk (four_digits d.year ++ two_digits d.month ++ two_digits d.day ++ two_digits d.hour)

example : strftime_YmdH ⟨2026, 10, 12, 9⟩ = "2026101209" := rfl

/-- Outcome of the `with`-statement body (the three build commands): either it
returns normally or a `subprocess.CalledProcessError` with the given non-zero
exit code escapes. -/
inductive BodyOutcome where
  | ok : BodyOutcome
  | fail : Nat → BodyOutcome
deriving DecidableEq

/-- The replacement text used by `re.sub` in `nightly_overrides`. -/
def version_decl_repl (updated : String) : String :=
  "__version__ = \x22" ++ updated ++ "\x22"

/-- The `str.replace` pattern used on `setup.py`. -/
def setup_name_pat : String := "name=\x22keras-cv\x22"

/-- The `str.replace` replacement used on `setup.py`. -/
def setup_name_repl : String := "name=\x22keras-cv-nightly\x22"

/-- One run of the `nightly_overrides` context manager around a body. -/
structure NORun where
  /-- The version string yielded to the `with` body. -/
  yielded : String
  /-- Content of the version file while the body runs. -/
  duringVersion : String
  /-- Content of `setup.py` while the body runs. -/
  duringSetup : String
  /-- Every write to the version file, in order. -/
  versionWrites : List String
  /-- Every write to `setup.py`, in order. -/
  setupWrites : List String
  /-- How the body finished. -/
  outcome : BodyOutcome
deriving DecidableEq

/-- `nightly_overrides` (pip_build.py): capture the two files, parse the
version (raising `ValueError` if unparsable, before anything is written);
when nightly, rewrite the version declaration via `re.sub` and the package
name via `str.replace`, then — in a `finally` block, so on every exit of the
body — write the captured original contents back. -/
def nightly_overrides (cv cs : String) (is_nightly : Bool) (timestamp : String)
    (body : BodyOutcome) : Except String NORun :=
  match parse_version cv with
  | Except.error e => Except.error e
  | Except.ok version =>
    if is_nightly then
      let updated := version ++ ".dev" ++ timestamp
      let newV := String.mk (subVersion (version_decl_repl updated).data cv.data)
      let newS := String.mk (replaceAll setup_name_pat.data setup_name_repl.data cs.data)
      Except.ok { yielded := updated, duringVersion := newV, duringSetup := newS,
                  versionWrites := [newV, cv], setupWrites := [newS, cs], outcome := body }
    else
      Except.ok { yielded := version, duringVersion := cv, duringSetup := cs,
                  versionWrites := [], setupWrites := [], outcome := body }

/-- Content of a file after a sequence of recorded writes. -/
def applyWrites (orig : String) (writes : List String) : String :=
  (writes.getLast?).getD orig

/-- A file in the wheels output directory: its name and its
`stat().st_mtime` (modelled at integral resolution). -/
structure Wheel where
  name : String
  mtime : Nat
deriving DecidableEq

/-- Suffix test backing the `*.whl` glob. -/
def endsWithL (suf cs : List Char) : Bool := suf.reverse.isPrefixOf cs.reverse

/-- Python `in` on strings: substring test. -/
def containsSub (need : List Char) : List Char → Bool
  | [] => need.isEmpty
  | c :: cs => need.isPrefixOf (c :: cs) || containsSub need cs

/-- Stable insertion keeping mtimes descending: an element goes before the
first strictly older element, after any as-recent one (this is what
`sorted(..., key=mtime, reverse=True)` — a stable sort — produces). -/
def insertWheel (w : Wheel) : List Wheel → List Wheel
  | [] => [w]
  | x :: xs => if x.mtime ≤ w.mtime then w :: x :: xs else x :: insertWheel w xs

/-- `sorted(wheels_path.glob("*.whl"), key=mtime, reverse=True)`. -/
def sortWheels : List Wheel → List Wheel
  | [] => []
  | w :: ws => insertWheel w (sortWheels ws)

/-- `locate_wheel` (pip_build.py).  The directory is modelled by an existence
flag and its listing (in glob order).  Returns `none` when the directory does
not exist; otherwise scans the `*.whl` files newest-first and returns the
first whose name contains the version string, falling back to the newest
wheel, or `none` when there is no wheel at all. -/
def locate_wheel (dirExists : Bool) (files : List Wheel) (version : String) : Option Wheel :=
  if dirExists = false then none
  else
    let wheels := sortWheels (files.filter (fun w => endsWithL ".whl".data w.name.data))
    match wheels.find? (fun w => containsSub version.data w.name.data) with
    | some w => some w
    | none => wheels.head?

example : locate_wheel true [⟨"pkg-1.2.3.whl", 5⟩, ⟨"pkg-1.2.3.dev99.whl", 10⟩] "1.2.3"
    = some ⟨"pkg-1.2.3.dev99.whl", 10⟩ := rfl
example : locate_wheel true [⟨"pkg-1.2.3.whl", 50⟩, ⟨"pkg-1.2.3.dev99.whl", 10⟩] "1.2.3"
    = some ⟨"pkg-1.2.3.whl", 50⟩ := rfl
example : locate_wheel true [⟨"other-9.whl", 50⟩, ⟨"README.txt", 99⟩] "1.2.3"
    = some ⟨"other-9.whl", 50⟩ := rfl
example : locate_wheel true [⟨"README.txt", 99⟩] "1.2.3" = none := rfl
example : locate_wheel false [⟨"pkg-1.2.3.whl", 5⟩] "1.2.3" = none := rfl

/-- The filesystem state the builder touches, rooted at the repository
directory: the two patched files, the wheels directory and the dist
directory. -/
structure FS where
  versionContent : String
  setupContent : String
  wheelsDirExists : Bool
  /-- Listing of the wheels directory, in glob order. -/
  wheelsFiles : List Wheel
  distDirExists : Bool
  /-- Names of the files in the dist directory. -/
  distFiles : List String
deriving DecidableEq

/-- The environment of one build attempt: the exit codes of the three
external commands (`python3 build_deps/configure.py`, `bazel build
build_pip_pkg`, `bazel-bin/build_pip_pkg wheels`), the wheels-directory
listing left behind by a successful `build_pip_pkg`, the exit code of a
requested `pip3 install`, and the wall clock. -/
structure World where
  configureExit : Nat
  bazelExit : Nat
  buildPkgExit : Nat
  producedWheels : List Wheel
  pipInstallExit : Nat
  now : DateTime
deriving DecidableEq

/-- `run_command` (pip_build.py): `subprocess.run(cmd, check=True)` raises
`CalledProcessError` carrying the exit code when it is non-zero. -/
def run_command (exitCode : Nat) : Except Nat Unit :=
  if exitCode ≠ 0 then Except.error exitCode else Except.ok ()

/-- The three commands the `with` body runs, in order; the first non-zero
exit aborts the sequence. -/
def run_build_commands (w : World) : Except Nat Unit := do
  run_command w.configureExit
  run_command w.bazelExit
  run_command w.buildPkgExit

/-- The body outcome fed to `nightly_overrides`. -/
def body_outcome (w : World) : BodyOutcome :=
  match run_build_commands w with
  | Except.ok _ => BodyOutcome.ok
  | Except.error c => BodyOutcome.fail c

/-- Errors `build` can raise: the `ValueError` from `parse_version` or a
`CalledProcessError` from a build command. -/
inductive BuildErr where
  | parseError : String → BuildErr
  | calledProcess : Nat → BuildErr
deriving DecidableEq

/-- `build` (pip_build.py): create the wheels directory, run the three
commands under `nightly_overrides` (whose `finally` always rewrites the two
captured files), then locate the wheel and copy it into `dist`.  Returns the
copied wheel's path, `none` when no wheel was found, or the raised error;
paired with the filesystem left behind.  On a command failure the wheels
listing is left as it was (the failed `build_pip_pkg` run's partial output is
not modelled). -/
def build (root : String) (fs : FS) (w : World) (is_nightly : Bool) :
    Except BuildErr (Option String) × FS :=
  let fs1 : FS := { fs with wheelsDirExists := true }
  match nightly_overrides fs.versionContent fs.setupContent is_nightly
      (strftime_YmdH w.now) (body_outcome w) with
  | Except.error e => (Except.error (BuildErr.parseError e), fs1)
  | Except.ok run =>
    let fs2 : FS := { fs1 with
      versionContent := applyWrites fs.versionContent run.versionWrites,
      setupContent := applyWrites fs.setupContent run.setupWrites,
      wheelsFiles := match run.outcome with
        | BodyOutcome.ok => w.producedWheels
        | BodyOutcome.fail _ => fs1.wheelsFiles }
    match run.outcome with
    | BodyOutcome.fail c => (Except.error (BuildErr.calledProcess c), fs2)
    | BodyOutcome.ok =>
      match locate_wheel fs2.wheelsDirExists fs2.wheelsFiles run.yielded with
      | none => (Except.ok none, fs2)
      | some wheel =>
        let fs3 : FS := { fs2 with
          distDirExists := true,
          distFiles := fs2.distFiles ++ [wheel.name] }
        (Except.ok (some (root ++ "/" ++ dist_directory ++ "/" ++ wheel.name)), fs3)

/-- The `__main__` block: run `build` inside `try`; on `CalledProcessError`
call `sys.exit` with the command's exit code.  A `ValueError` escaping `build`
is uncaught, so the interpreter exits with status 1; likewise a
`CalledProcessError` raised by the optional post-build `install_whl` (pip) is
outside the `try` and exits with status 1.  Returns the process exit status
and the final filesystem. -/
def pip_build_main (root : String) (fs : FS) (w : World)
    (nightly install : Bool) : Nat × FS :=
  match build root fs w nightly with
  | (Except.error (BuildErr.parseError _), fs') => (1, fs')
  | (Except.error (BuildErr.calledProcess c), fs') => (c, fs')
  | (Except.ok wheelPath, fs') =>
    match wheelPath, install with
    | some _, true => (if w.pipInstallExit ≠ 0 then 1 else 0, fs')
    | _, _ => (0, fs')

/-! ## The resource locator (`keras_cv/src/utils/resource_loader.py`)

Paths are POSIX paths (on the host in question `os.sep` is `/`, so the
`path.replace("/", os.sep)` normalisation is the identity).  `os.path.dirname`,
`os.path.normpath` and `os.path.join` are modelled after `posixpath`. -/

/-- `posixpath.dirname`: everything before the last `/`; a head consisting
only of slashes is kept as-is, otherwise trailing slashes are stripped. -/
def dirnameP (p : String) : String :=
  let cs := p.data
  let head := (cs.reverse.dropWhile (fun c => c != '/')).reverse
  if head.isEmpty then ""
  else if head.all (fun c => c == '/') then String.mk head
  else String.mk (head.reverse.dropWhile (fun c => c == '/')).reverse

example : dirnameP "/ws/keras_cv/src/utils/resource_loader.py" = "/ws/keras_cv/src/utils" := rfl
example : dirnameP "/a" = "/" := rfl
example : dirnameP "a" = "" := rfl
example : dirnameP "/" = "/" := rfl
example : dirnameP "" = "" := rfl

/-- Split on `/`, keeping empty components, as `p.split('/')` does. -/
def splitSlash : List Char → List (List Char)
  | [] => [[]]
  | c :: cs =>
    let rest := splitSlash cs
    if c == '/' then [] :: rest
    else
      match rest with
      | r :: rs => (c :: r) :: rs
      | [] => [[c]]

/-- Join components with `/`. -/
def joinSlash : List (List Char) → List Char
  | [] => []
  | [x] => x
  | x :: y :: rest => x ++ '/' :: joinSlash (y :: rest)

/-- One step of `posixpath.normpath`'s component scan. -/
def normStep (initSlashes : Nat) (acc : List (List Char)) (comp : List Char) :
    List (List Char) :=
  if comp = [] ∨ comp = ['.'] then acc
  else if comp ≠ ['.', '.'] ∨ (initSlashes = 0 ∧ acc = [])
      ∨ acc.getLast? = some ['.', '.'] then acc ++ [comp]
  else acc.dropLast

/-- `posixpath.normpath`: collapse `//`, `.` and `..` segments (two leading
slashes are preserved, following POSIX). -/
def normpathP (p : String) : String :=
  if p = "" then "."
  else
    let cs := p.data
    let initSlashes : Nat :=
      if cs.take 1 = ['/'] then
        if cs.take 2 = ['/', '/'] ∧ ¬ cs.take 3 = ['/', '/', '/'] then 2 else 1
      else 0
    let newComps := (splitSlash cs).foldl (normStep initSlashes) []
    let result := List.replicate initSlashes '/' ++ joinSlash newComps
    if result.isEmpty then "." else String.mk result

example : normpathP "/a//b/./c/../d" = "/a/b/d" := rfl
example : normpathP "a/../../b" = "../b" := rfl
example : normpathP "/../a" = "/a" := rfl
example : normpathP "//a/b" = "//a/b" := rfl
example : normpathP "" = "." := rfl
example : normpathP "a/b/" = "a/b" := rfl

/-- `posixpath.join` with a single extra component: an absolute second
argument discards the first; otherwise a `/` is inserted unless the first
part is empty or already ends in `/`. -/
def joinP (a b : String) : String :=
  if b.data.take 1 = ['/'] then b
  else if a = "" ∨ a.data.getLast? = some '/' then a ++ b
  else a ++ "/" ++ b

example : joinP "/data" "foo.so" = "/data/foo.so" := rfl
example : joinP "/data/" "foo.so" = "/data/foo.so" := rfl
example : joinP "/data" "/abs/foo.so" = "/abs/foo.so" := rfl
example : joinP "" "foo.so" = "foo.so" := rfl

/-- The ordered candidate-root list of `get_path_to_datafile`: the
`KERAS_CV_DATA_ROOT` override when set and non-empty (Python truthiness),
then the project root (`dirname(dirname(abspath(__file__)))` of the module
file), its parent, and the conventional `bazel-bin` output subtree. -/
def search_roots (override : Option String) (module_file : String) : List String :=
  let root_dir := dirnameP (dirnameP module_file)
  let package_root := dirnameP root_dir
  let workspace_root := dirnameP package_root
  (match override with
   | some o => if o = "" then [] else [o]
   | none => []) ++
  [root_dir, package_root,
   joinP (joinP (joinP workspace_root "bazel-bin") "keras_cv") "src"]

/-- The search loop of `get_path_to_datafile`: skip empty roots, record each
joined and normalised candidate, return the first that exists, and otherwise
raise `FileNotFoundError` listing every attempted candidate in order. -/
def locate_loop (fsExists : String → Bool) (path : String) :
    List String → List String → Except String String
  | [], attempted =>
    Except.error ("Unable to locate resource \x27" ++ path ++ "\x27. Looked in: "
      ++ String.intercalate ", " attempted)
  | r :: rs, attempted =>
    if r = "" then locate_loop fsExists path rs attempted
    else
      let candidate := normpathP (joinP r path)
      if fsExists candidate then Except.ok candidate
      else locate_loop fsExists path rs (attempted ++ [candidate])

/-- `get_path_to_datafile` (resource_loader.py), as a function of the
override environment variable, the module's file path and the filesystem's
existence predicate (`os.path.exists`: files and directories alike). -/
def get_path_to_datafile (override : Option String) (module_file : String)
    (fsExists : String → Bool) (path : String) : Except String String :=
  locate_loop fsExists path (search_roots override module_file) []

/-- The candidate paths in search order, as attempted by the loop. -/
def candidate_paths (override : Option String) (module_file path : String) : List String :=
  ((search_roots override module_file).filter (fun r => r != "")).map
    (fun r => normpathP (joinP r path))

example :
    get_path_to_datafile none "/ws/keras_cv/src/utils/resource_loader.py"
      (fun s => s == "/ws/bazel-bin/keras_cv/src/custom_ops/op.so") "custom_ops/op.so"
    = Except.ok "/ws/bazel-bin/keras_cv/src/custom_ops/op.so" := rfl
example :
    get_path_to_datafile (some "/data") "/ws/keras_cv/src/utils/resource_loader.py"
      (fun s => s == "/data/op.so" || s == "/ws/keras_cv/src/op.so") "op.so"
    = Except.ok "/data/op.so" := rfl
example :
    get_path_to_datafile none "/ws/keras_cv/src/utils/resource_loader.py"
      (fun _ => false) "op.so"
    = Except.error ("Unable to locate resource \x27op.so\x27. Looked in: "
        ++ "/ws/keras_cv/src/op.so, /ws/keras_cv/op.so, /ws/bazel-bin/keras_cv/src/op.so") := rfl

/-! ## `LazySO` and the one-time ABI warning -/

/-- The pinned compatible TensorFlow version prefix. -/
def TF_VERSION_FOR_ABI_COMPATIBILITY : String := "2.17"

/-- `abi_is_compatible`: `tf.__version__.startswith("2.17")`. -/
def abi_is_compatible (tf_version : String) : Bool :=
  TF_VERSION_FOR_ABI_COMPATIBILITY.data.isPrefixOf tf_version.data

example : abi_is_compatible "2.17.1" = true := rfl
example : abi_is_compatible "2.15.0" = false := rfl

/-- A loaded op library (the value `tf.load_op_library` returns). -/
structure OpsLib where
  path : String
deriving DecidableEq

/-- Process-wide state: the running TensorFlow version, the module-level
`abi_warning_already_raised` flag, and the `_ops` cache of every `LazySO`
handle (handles are indexed by `Nat`; unused indices stay `none`, matching a
handle whose library has not been loaded). -/
structure ProcSt where
  tf_version : String
  abi_warning_already_raised : Bool
  handles : Nat → Option OpsLib

/-- `LazySO.display_warning_if_incompatible`: warn only when the flag is not
yet set and the version is incompatible, then set the flag.  Returns the new
state and whether a warning was emitted. -/
def display_warning_if_incompatible (st : ProcSt) : ProcSt × Bool :=
  if st.abi_warning_already_raised || abi_is_compatible st.tf_version then (st, false)
  else ({ st with abi_warning_already_raised := true }, true)

/-- One access to `LazySO.ops` on handle `i` with relative paths resolved by
`loader`: when `_ops` is still `None`, run the warning check and load the
library (the load itself is unconditional — an ABI mismatch never prevents
it). -/
def lazySO_ops_access (loader : Nat → OpsLib) (st : ProcSt) (i : Nat) : ProcSt × Bool :=
  match st.handles i with
  | some _ => (st, false)
  | none =>
    let (st1, warned) := display_warning_if_incompatible st
    ({ st1 with handles := fun j => if j = i then some (loader i) else st1.handles j }, warned)

/-- Run a sequence of `ops` accesses, returning the final state and the number
of warnings emitted. -/
def run_accesses (loader : Nat → OpsLib) (st : ProcSt) : List Nat → ProcSt × Nat
  | [] => (st, 0)
  | i :: rest =>
    let (st1, w) := lazySO_ops_access loader st i
    let (st2, n) := run_accesses loader st1 rest
    (st2, (if w then 1 else 0) + n)

/-- The state at interpreter start-up: flag clear, no handle loaded. -/
def initProcSt (tf_version : String) : ProcSt :=
  { tf_version := tf_version, abi_warning_already_raised := false, handles := fun _ => none }

/-! ## Shared lemmas about `nightly_overrides` and `build` -/

/-- String reconstruction from its character data. -/
theorem string_mk_data (s : String) : String.mk s.data = s := rfl

/-- Whatever `nightly_overrides` does, the last write it records to each file
(if any) is the originally captured content. -/
theorem nightly_overrides_restores {cv cs : String} {n : Bool} {ts : String}
    {b : BodyOutcome} {run : NORun}
    (h : nightly_overrides cv cs n ts b = Except.ok run) :
    applyWrites cv run.versionWrites = cv ∧ applyWrites cs run.setupWrites = cs := by
  unfold nightly_overrides at h
  cases hp : parse_version cv with
  | error e => rw [hp] at h; exact absurd h (by simp)
  | ok v =>
    rw [hp] at h
    cases n with
    | false =>
      simp only [Bool.false_eq_true, if_false, Except.ok.injEq] at h
      subst h
      exact ⟨rfl, rfl⟩
    | true =>
      simp only [if_true, Except.ok.injEq] at h
      subst h
      simp [applyWrites]

/-- C1.  For every build attempt — nightly or not, finishing normally or
aborted by a failing subprocess — the version file and `setup.py` end up
byte-identical to their pre-build contents: the `finally` block of
`nightly_overrides` writes the captured originals back on every exit path,
and the non-nightly path never writes at all. -/
theorem build_restores_files (root : String) (fs : FS) (w : World) (is_nightly : Bool) :
    (build root fs w is_nightly).2.versionContent = fs.versionContent
    ∧ (build root fs w is_nightly).2.setupContent = fs.setupContent := by
  unfold build
  cases hno : nightly_overrides fs.versionContent fs.setupContent is_nightly
      (strftime_YmdH w.now) (body_outcome w) with
  | error e => exact ⟨rfl, rfl⟩
  | ok run =>
    obtain ⟨hv, hs⟩ := nightly_overrides_restores hno
    dsimp only
    cases run.outcome with
    | fail c => exact ⟨hv, hs⟩
    | ok =>
      dsimp only
      cases locate_wheel true w.producedWheels run.yielded with
      | none => exact ⟨hv, hs⟩
      | some wheel => exact ⟨hv, hs⟩

/-- C9.  When `is_nightly` is false, `nightly_overrides` performs no write to
either file on any path (whatever the body's outcome): both write logs are
empty, the contents seen by the body are the originals, and the yielded
version string is exactly the parsed original. -/
theorem nightly_overrides_non_nightly_frame (cv cs ts : String) (body : BodyOutcome)
    (run : NORun) (h : nightly_overrides cv cs false ts body = Except.ok run) :
    run.versionWrites = [] ∧ run.setupWrites = []
    ∧ run.duringVersion = cv ∧ run.duringSetup = cs
    ∧ parse_version cv = Except.ok run.yielded := by
  unfold nightly_overrides at h
  cases hp : parse_version cv with
  | error e => rw [hp] at h; exact absurd h (by simp)
  | ok v =>
    rw [hp] at h
    simp only [Bool.false_eq_true, if_false, Except.ok.injEq] at h
    subst h
    exact ⟨rfl, rfl, rfl, rfl, rfl⟩

/-- Witness for C9 at a concrete non-nightly run. -/
theorem nightly_overrides_non_nightly_frame_witness :
    NORun.versionWrites
        { yielded := "0.9.0", duringVersion := "__version__ = \x220.9.0\x22",
          duringSetup := "setup(name=\x22keras-cv\x22)", versionWrites := [],
          setupWrites := [], outcome := BodyOutcome.ok } = []
    ∧ NORun.setupWrites
        { yielded := "0.9.0", duringVersion := "__version__ = \x220.9.0\x22",
          duringSetup := "setup(name=\x22keras-cv\x22)", versionWrites := [],
          setupWrites := [], outcome := BodyOutcome.ok } = []
    ∧ NORun.duringVersion
        { yielded := "0.9.0", duringVersion := "__version__ = \x220.9.0\x22",
          duringSetup := "setup(name=\x22keras-cv\x22)", versionWrites := [],
          setupWrites := [], outcome := BodyOutcome.ok } = "__version__ = \x220.9.0\x22"
    ∧ NORun.duringSetup
        { yielded := "0.9.0", duringVersion := "__version__ = \x220.9.0\x22",
          duringSetup := "setup(name=\x22keras-cv\x22)", versionWrites := [],
          setupWrites := [], outcome := BodyOutcome.ok } = "setup(name=\x22keras-cv\x22)"
    ∧ parse_version "__version__ = \x220.9.0\x22" = Except.ok
        (NORun.yielded
          { yielded := "0.9.0", duringVersion := "__version__ = \x220.9.0\x22",
            duringSetup := "setup(name=\x22keras-cv\x22)", versionWrites := [],
            setupWrites := [], outcome := BodyOutcome.ok }) :=
  nightly_overrides_non_nightly_frame "__version__ = \x220.9.0\x22"
    "setup(name=\x22keras-cv\x22)" "2026101209" BodyOutcome.ok
    { yielded := "0.9.0", duringVersion := "__version__ = \x220.9.0\x22",
      duringSetup := "setup(name=\x22keras-cv\x22)", versionWrites := [],
      setupWrites := [], outcome := BodyOutcome.ok } rfl

/-! ## The resource-locator theorems -/

/-- The search loop, characterised: it returns the first candidate the
filesystem reports as existing, and otherwise the `FileNotFoundError`
message listing everything attempted so far plus every remaining candidate,
in order. -/
theorem locate_loop_spec (fsExists : String → Bool) (path : String) :
    ∀ (roots attempted : List String),
    locate_loop fsExists path roots attempted =
      match ((roots.filter (fun r => r != "")).map
          (fun r => normpathP (joinP r path))).find? fsExists with
      | some c => Except.ok c
      | none =>
        Except.error ("Unable to locate resource \x27" ++ path ++ "\x27. Looked in: "
          ++ String.intercalate ", " (attempted ++ (roots.filter (fun r => r != "")).map
              (fun r => normpathP (joinP r path)))) := by
  intro roots
  induction roots with
  | nil => intro attempted; simp [locate_loop]
  | cons r rs ih =>
    intro attempted
    by_cases hr : r = ""
    · subst hr
      simp only [locate_loop, if_pos rfl]
      rw [ih attempted]
      simp
    · have hrb : (r != "") = true := by simp [hr]
      simp only [locate_loop, if_neg hr]
      by_cases hex : fsExists (normpathP (joinP r path)) = true
      · simp [hrb, List.filter_cons, List.find?, hex]
      · have hexf : fsExists (normpathP (joinP r path)) = false := by
          cases hfe : fsExists (normpathP (joinP r path))
          · rfl
          · exact absurd hfe hex
        rw [if_neg (by simp [hexf])]
        rw [ih (attempted ++ [normpathP (joinP r path)])]
        simp [hrb, List.filter_cons, List.find?, hexf, List.append_assoc]

/-- C3.  `get_path_to_datafile` returns the first candidate path, in search
order, that exists on the filesystem (a bare existence test, with no
file-versus-directory distinction), and when no candidate exists it raises a
`FileNotFoundError` whose message enumerates every attempted candidate path
in search order. -/
theorem get_path_to_datafile_spec (override : Option String) (module_file : String)
    (fsExists : String → Bool) (path : String) :
    get_path_to_datafile override module_file fsExists path =
      match (candidate_paths override module_file path).find? fsExists with
      | some c => Except.ok c
      | none =>
        Except.error ("Unable to locate resource \x27" ++ path ++ "\x27. Looked in: "
          ++ String.intercalate ", " (candidate_paths override module_file path)) := by
  unfold get_path_to_datafile candidate_paths
  rw [locate_loop_spec]
  simp

/-- C4.  When `KERAS_CV_DATA_ROOT` is set to a non-empty value and the
resource exists under it, resolution returns the path joined under that
override root — whatever the rest of the filesystem looks like, since the
override root is always first in the candidate order. -/
theorem get_path_to_datafile_override_priority (o module_file path : String)
    (fsExists : String → Bool) (hno : o ≠ "")
    (hex : fsExists (normpathP (joinP o path)) = true) :
    get_path_to_datafile (some o) module_file fsExists path
      = Except.ok (normpathP (joinP o path)) := by
  unfold get_path_to_datafile search_roots
  simp only [if_neg hno, List.cons_append, List.nil_append]
  unfold locate_loop
  rw [if_neg hno, if_pos hex]

/-- Witness for C4: the override root wins even though the resource also
exists under the project root. -/
theorem get_path_to_datafile_override_priority_witness :
    get_path_to_datafile (some "/data") "/ws/keras_cv/src/utils/resource_loader.py"
      (fun s => s == "/data/foo.so" || s == "/ws/keras_cv/src/foo.so") "foo.so"
      = Except.ok (normpathP (joinP "/data" "foo.so")) :=
  get_path_to_datafile_override_priority "/data" "/ws/keras_cv/src/utils/resource_loader.py"
    "foo.so" (fun s => s == "/data/foo.so" || s == "/ws/keras_cv/src/foo.so")
    (by decide) (by decide)

/-! ## Wheel selection (C2) -/

/-- Counterexample to C2 as stated: with `pkg-1.2.3.dev99.whl` modified more
recently than `pkg-1.2.3.whl`, `locate_wheel` for version `1.2.3` returns the
dev wheel — `"1.2.3"` is a substring of both names and the scan runs
newest-first, so the outcome does depend on modification times. -/
theorem locate_wheel_dev_wheel_counterexample :
    locate_wheel true [⟨"pkg-1.2.3.whl", 5⟩, ⟨"pkg-1.2.3.dev99.whl", 10⟩] "1.2.3"
        = some ⟨"pkg-1.2.3.dev99.whl", 10⟩
    ∧ locate_wheel true [⟨"pkg-1.2.3.whl", 5⟩, ⟨"pkg-1.2.3.dev99.whl", 10⟩] "1.2.3"
        ≠ some ⟨"pkg-1.2.3.whl", 5⟩ :=
  ⟨rfl, by decide⟩

/-- C2 amended.  For the directory holding exactly `pkg-1.2.3.whl` (mtime
`a`) and `pkg-1.2.3.dev99.whl` (mtime `b`), both names contain `"1.2.3"`, so
`locate_wheel` returns whichever of the two was modified most recently (the
glob-first one, `pkg-1.2.3.whl`, on a tie) — not `pkg-1.2.3.whl`
unconditionally. -/
theorem locate_wheel_substring_newest_first (a b : Nat) :
    locate_wheel true [⟨"pkg-1.2.3.whl", a⟩, ⟨"pkg-1.2.3.dev99.whl", b⟩] "1.2.3"
      = some (if b ≤ a then (⟨"pkg-1.2.3.whl", a⟩ : Wheel)
              else ⟨"pkg-1.2.3.dev99.whl", b⟩) := by
  have h1 : endsWithL ".whl".data ("pkg-1.2.3.whl" : String).data = true := rfl
  have h2 : endsWithL ".whl".data ("pkg-1.2.3.dev99.whl" : String).data = true := rfl
  have h3 : containsSub "1.2.3".data ("pkg-1.2.3.whl" : String).data = true := rfl
  have h4 : containsSub "1.2.3".data ("pkg-1.2.3.dev99.whl" : String).data = true := rfl
  by_cases hba : b ≤ a
  · simp [locate_wheel, sortWheels, insertWheel, h1, h2, h3, h4, hba, List.find?]
  · simp [locate_wheel, sortWheels, insertWheel, h1, h2, h3, h4, hba, List.find?]

/-! ## Missing-wheel behaviour (C10) -/

/-- C10.  `locate_wheel` is total: it returns `none` (it cannot raise) when
the wheels directory does not exist and when the directory holds no `.whl`
file; and when the commands succeed but produce no wheel, `build` reports
failure by returning `none` while creating and copying nothing into the
dist directory. -/
theorem locate_wheel_total_none (files : List Wheel) (version root : String)
    (fs : FS) (w : World) (is_nightly : Bool) :
    locate_wheel false files version = none
    ∧ (files.filter (fun f => endsWithL ".whl".data f.name.data) = [] →
        locate_wheel true files version = none)
    ∧ ((∃ v, parse_version fs.versionContent = Except.ok v) →
        run_build_commands w = Except.ok () →
        w.producedWheels = [] →
        (build root fs w is_nightly).1 = Except.ok none
        ∧ (build root fs w is_nightly).2.distDirExists = fs.distDirExists
        ∧ (build root fs w is_nightly).2.distFiles = fs.distFiles) := by
  refine ⟨rfl, ?_, ?_⟩
  · intro hfil
    simp [locate_wheel, hfil, sortWheels]
  · rintro ⟨v, hv⟩ hcmd hwh
    have hbody : body_outcome w = BodyOutcome.ok := by
      unfold body_outcome
      rw [hcmd]
    have hloc : ∀ ver : String, locate_wheel true ([] : List Wheel) ver = none := by
      intro ver
      simp [locate_wheel, sortWheels]
    unfold build
    cases hni : is_nightly with
    | false =>
      simp only [nightly_overrides, hv, Bool.false_eq_true, if_false, hbody, hwh, hloc]
      refine ⟨?_, ?_, ?_⟩ <;> first | rfl | trivial
    | true =>
      simp only [nightly_overrides, hv, if_true, hbody, hwh, hloc]
      refine ⟨?_, ?_, ?_⟩ <;> first | rfl | trivial

/-- Witness for C10: a missing directory, an empty directory, and a
successful command sequence that produced no wheel. -/
theorem locate_wheel_total_none_witness :
    locate_wheel false ([] : List Wheel) "1.2.3" = none
    ∧ locate_wheel true ([] : List Wheel) "1.2.3" = none
    ∧ ((build "/repo"
          { versionContent := "__version__ = \x220.9.0\x22", setupContent := "s",
            wheelsDirExists := false, wheelsFiles := [],
            distDirExists := false, distFiles := [] }
          { configureExit := 0, bazelExit := 0, buildPkgExit := 0,
            producedWheels := [], pipInstallExit := 0,
            now := ⟨2026, 10, 12, 9⟩ } false).1 = Except.ok none
        ∧ (build "/repo"
            { versionContent := "__version__ = \x220.9.0\x22", setupContent := "s",
              wheelsDirExists := false, wheelsFiles := [],
              distDirExists := false, distFiles := [] }
            { configureExit := 0, bazelExit := 0, buildPkgExit := 0,
              producedWheels := [], pipInstallExit := 0,
              now := ⟨2026, 10, 12, 9⟩ } false).2.distDirExists = false
        ∧ (build "/repo"
            { versionContent := "__version__ = \x220.9.0\x22", setupContent := "s",
              wheelsDirExists := false, wheelsFiles := [],
              distDirExists := false, distFiles := [] }
            { configureExit := 0, bazelExit := 0, buildPkgExit := 0,
              producedWheels := [], pipInstallExit := 0,
              now := ⟨2026, 10, 12, 9⟩ } false).2.distFiles = []) := by
  have h := locate_wheel_total_none ([] : List Wheel) "1.2.3" "/repo"
    { versionContent := "__version__ = \x220.9.0\x22", setupContent := "s",
      wheelsDirExists := false, wheelsFiles := [],
      distDirExists := false, distFiles := [] }
    { configureExit := 0, bazelExit := 0, buildPkgExit := 0,
      producedWheels := [], pipInstallExit := 0,
      now := ⟨2026, 10, 12, 9⟩ } false
  exact ⟨h.1, h.2.1 rfl, h.2.2 ⟨"0.9.0", rfl⟩ rfl rfl⟩

/-! ## Exit-code propagation (C6) -/

/-- Counterexample to C6 as stated: the post-build `pip3 install`
(`install_whl`) is an external command the script runs, but its
`CalledProcessError` is raised outside the entry point's `try`, so a pip
failure with exit code 7 makes the process exit with the interpreter's
uncaught-exception status 1, not 7. -/
theorem pip_install_exit_code_counterexample :
    (pip_build_main "/repo"
      { versionContent := "__version__ = \x220.9.0\x22", setupContent := "s",
        wheelsDirExists := false, wheelsFiles := [],
        distDirExists := false, distFiles := [] }
      { configureExit := 0, bazelExit := 0, buildPkgExit := 0,
        producedWheels := [⟨"keras_cv-0.9.0-py3.whl", 1⟩], pipInstallExit := 7,
        now := ⟨2026, 10, 12, 9⟩ } false true).1 = 1
    ∧ (1 : Nat) ≠ 7 :=
  ⟨rfl, by decide⟩

/-- C6 amended.  For the three commands `build` itself invokes (configure,
`bazel build`, `build_pip_pkg`), a non-zero exit propagates as a
`CalledProcessError` carrying that exit code, and the entry point exits with
exactly that code; the post-build `pip3 install`, however, fails outside the
`try` and exits with status 1 instead. -/
theorem build_command_exit_propagates (root : String) (fs : FS) (w : World)
    (is_nightly install : Bool) (c : Nat)
    (hp : ∃ v, parse_version fs.versionContent = Except.ok v)
    (hc : run_build_commands w = Except.error c) :
    (build root fs w is_nightly).1 = Except.error (BuildErr.calledProcess c)
    ∧ (pip_build_main root fs w is_nightly install).1 = c := by
  obtain ⟨v, hv⟩ := hp
  have hbody : body_outcome w = BodyOutcome.fail c := by
    unfold body_outcome
    rw [hc]
  have hbuild : (build root fs w is_nightly).1 = Except.error (BuildErr.calledProcess c) := by
    unfold build
    cases hni : is_nightly with
    | false =>
      simp only [nightly_overrides, hv, Bool.false_eq_true, if_false, hbody]
    | true =>
      simp only [nightly_overrides, hv, if_true, hbody]
  refine ⟨hbuild, ?_⟩
  unfold pip_build_main
  cases hb : build root fs w is_nightly with
  | mk res fs' =>
    rw [hb] at hbuild
    simp only at hbuild
    subst hbuild
    rfl

/-- Witness for C6 (amended): the configure step fails with exit code 3. -/
theorem build_command_exit_propagates_witness :
    (build "/repo"
      { versionContent := "__version__ = \x220.9.0\x22", setupContent := "s",
        wheelsDirExists := false, wheelsFiles := [],
        distDirExists := false, distFiles := [] }
      { configureExit := 3, bazelExit := 0, buildPkgExit := 0,
        producedWheels := [], pipInstallExit := 0,
        now := ⟨2026, 10, 12, 9⟩ } false).1 = Except.error (BuildErr.calledProcess 3)
    ∧ (pip_build_main "/repo"
        { versionContent := "__version__ = \x220.9.0\x22", setupContent := "s",
          wheelsDirExists := false, wheelsFiles := [],
          distDirExists := false, distFiles := [] }
        { configureExit := 3, bazelExit := 0, buildPkgExit := 0,
          producedWheels := [], pipInstallExit := 0,
          now := ⟨2026, 10, 12, 9⟩ } false false).1 = 3 :=
  build_command_exit_propagates "/repo"
    { versionContent := "__version__ = \x220.9.0\x22", setupContent := "s",
      wheelsDirExists := false, wheelsFiles := [],
      distDirExists := false, distFiles := [] }
    { configureExit := 3, bazelExit := 0, buildPkgExit := 0,
      producedWheels := [], pipInstallExit := 0,
      now := ⟨2026, 10, 12, 9⟩ } false false 3 ⟨"0.9.0", rfl⟩ rfl

/-! ## The one-time ABI warning (C7) -/

/-- A single `ops` access never clears the flag, and warns only when the flag
was clear (setting it). -/
theorem lazySO_ops_access_flag (loader : Nat → OpsLib) (st : ProcSt) (i : Nat) :
    ((lazySO_ops_access loader st i).2 = true →
      st.abi_warning_already_raised = false
      ∧ (lazySO_ops_access loader st i).1.abi_warning_already_raised = true)
    ∧ (st.abi_warning_already_raised = true →
      (lazySO_ops_access loader st i).1.abi_warning_already_raised = true
      ∧ (lazySO_ops_access loader st i).2 = false) := by
  unfold lazySO_ops_access display_warning_if_incompatible
  cases h : st.handles i with
  | some l => simp
  | none =>
    by_cases hw : st.abi_warning_already_raised = true
    · simp [hw]
    · have hw' : st.abi_warning_already_raised = false := by
        cases hfe : st.abi_warning_already_raised
        · rfl
        · exact absurd hfe hw
      by_cases hcomp : abi_is_compatible st.tf_version = true
      · simp [hw', hcomp]
      · have hcomp' : abi_is_compatible st.tf_version = false := by
          cases hfe : abi_is_compatible st.tf_version
          · rfl
          · exact absurd hfe hcomp
        simp [hw', hcomp']

/-- Warning count of a run, bounded by the initial flag: none once the flag
is set, at most one from a clear flag. -/
theorem run_accesses_count_le (loader : Nat → OpsLib) (trace : List Nat) :
    ∀ st : ProcSt,
    (run_accesses loader st trace).2
      ≤ (if st.abi_warning_already_raised then 0 else 1) := by
  induction trace with
  | nil => intro st; cases h : st.abi_warning_already_raised <;> simp [run_accesses]
  | cons i rest ih =>
    intro st
    have hstep := lazySO_ops_access_flag loader st i
    have hle := ih (lazySO_ops_access loader st i).1
    simp only [run_accesses]
    cases hw : (lazySO_ops_access loader st i).2 with
    | false =>
      simp only [Bool.false_eq_true, if_false, Nat.zero_add]
      cases hflag : st.abi_warning_already_raised with
      | true =>
        have h2 := (hstep.2 hflag).1
        rw [h2] at hle
        simpa using hle
      | false =>
        simp only [Bool.false_eq_true, if_false]
        refine Nat.le_trans hle ?_
        cases (lazySO_ops_access loader st i).1.abi_warning_already_raised <;> simp
    | true =>
      obtain ⟨hclear, hset⟩ := hstep.1 hw
      rw [hset] at hle
      simp only [if_true] at hle
      rw [hclear]
      simp only [Bool.false_eq_true, if_false, if_true]
      omega

/-- Once set, a handle's cache survives any further accesses. -/
theorem run_accesses_handles_mono (loader : Nat → OpsLib) (trace : List Nat) :
    ∀ (st : ProcSt) (i : Nat), (st.handles i).isSome = true →
    (((run_accesses loader st trace).1).handles i).isSome = true := by
  induction trace with
  | nil => intro st i h; exact h
  | cons j rest ih =>
    intro st i h
    simp only [run_accesses]
    refine ih _ i ?_
    unfold lazySO_ops_access display_warning_if_incompatible
    cases hj : st.handles j with
    | some l => exact h
    | none =>
      by_cases hij : i = j
      · subst hij; rw [hj] at h; simp at h
      · cases hw : st.abi_warning_already_raised || abi_is_compatible st.tf_version <;>
          simp [hw, hij, h]

/-- An access loads the handle it touches. -/
theorem lazySO_ops_access_loads (loader : Nat → OpsLib) (st : ProcSt) (i : Nat) :
    (((lazySO_ops_access loader st i).1).handles i).isSome = true := by
  unfold lazySO_ops_access display_warning_if_incompatible
  cases hj : st.handles i with
  | some l => simp [hj]
  | none =>
    cases hw : st.abi_warning_already_raised || abi_is_compatible st.tf_version <;>
      simp [hw]

/-- Every handle accessed during a run ends up loaded. -/
theorem run_accesses_all_loaded (loader : Nat → OpsLib) (trace : List Nat) :
    ∀ st : ProcSt,
    trace.all (fun i => (((run_accesses loader st trace).1).handles i).isSome) = true := by
  induction trace with
  | nil => intro st; rfl
  | cons i rest ih =>
    intro st
    simp only [run_accesses, List.all_cons, Bool.and_eq_true]
    constructor
    · exact run_accesses_handles_mono loader rest _ i (lazySO_ops_access_loads loader st i)
    · exact ih (lazySO_ops_access loader st i).1

/-- C7.  Over any sequence of `LazySO.ops` accesses in one process — any
number of handles, any TensorFlow version — the ABI warning is emitted at
most once (the module-level flag guards it), and every accessed handle's
library is loaded regardless: an ABI mismatch never prevents the load. -/
theorem abi_warning_at_most_once (tf_version : String) (loader : Nat → OpsLib)
    (trace : List Nat) :
    (run_accesses loader (initProcSt tf_version) trace).2 ≤ 1
    ∧ trace.all
        (fun i => (((run_accesses loader (initProcSt tf_version) trace).1).handles i).isSome)
        = true := by
  constructor
  · have h := run_accesses_count_le loader trace (initProcSt tf_version)
    simpa [initProcSt] using h
  · exact run_accesses_all_loaded loader trace (initProcSt tf_version)

/-! ## Parse errors (C8) -/

theorem matchVersionAt_nil : matchVersionAt [] = none := rfl

/-- `re.search` finds nothing exactly when the pattern matches at no start
position. -/
theorem searchVersion_eq_none_iff (cs : List Char) :
    searchVersion cs = none ↔ ∀ i, matchVersionAt (cs.drop i) = none := by
  induction cs with
  | nil =>
    constructor
    · intro _ i
      rw [List.drop_nil]
      exact matchVersionAt_nil
    · intro _
      rfl
  | cons c cs' ih =>
    constructor
    · intro h i
      simp only [searchVersion] at h
      cases hm : matchVersionAt (c :: cs') with
      | some r => rw [hm] at h; exact absurd h (by simp)
      | none =>
        rw [hm] at h
        cases i with
        | zero => exact hm
        | succ j => exact (ih.mp h) j
    · intro h
      have h0 := h 0
      rw [List.drop_zero] at h0
      simp only [searchVersion, h0]
      exact ih.mpr (fun j => by have := h (j + 1); rwa [List.drop_succ_cons] at this)

/-- `re.search` returns the match at the first matching start position. -/
theorem searchVersion_first {g rest : List Char} :
    ∀ (i : Nat) (cs : List Char),
    (∀ j, j < i → matchVersionAt (cs.drop j) = none) →
    matchVersionAt (cs.drop i) = some (g, rest) →
    searchVersion cs = some (g, rest) := by
  intro i
  induction i with
  | zero =>
    intro cs hnone hm
    cases cs with
    | nil => rw [List.drop_nil] at hm; exact absurd hm (by simp [matchVersionAt_nil])
    | cons c cs' =>
      simp only [List.drop_zero] at hm
      simp only [searchVersion, hm]
  | succ k ih =>
    intro cs hnone hm
    cases cs with
    | nil => rw [List.drop_nil] at hm; exact absurd hm (by simp [matchVersionAt_nil])
    | cons c cs' =>
      have h0 : matchVersionAt (c :: cs') = none := by
        have := hnone 0 (Nat.succ_pos k)
        rwa [List.drop_zero] at this
      simp only [searchVersion, h0]
      refine ih cs' (fun j hj => ?_) ?_
      · have := hnone (j + 1) (by omega)
        rwa [List.drop_succ_cons] at this
      · rwa [List.drop_succ_cons] at hm

/-- C8.  `parse_version` raises `ValueError` exactly when the file content
contains no match of the `__version__` pattern; when a match exists, the
quoted string captured at the first matching position is returned. -/
theorem parse_version_error_iff_no_match (content : String) :
    ((∃ e, parse_version content = Except.error e)
      ↔ ∀ i, matchVersionAt (content.data.drop i) = none)
    ∧ (∀ (i : Nat) (g rest : List Char),
        (∀ j, j < i → matchVersionAt (content.data.drop j) = none) →
        matchVersionAt (content.data.drop i) = some (g, rest) →
        parse_version content = Except.ok (String.mk g)) := by
  constructor
  · rw [← searchVersion_eq_none_iff]
    unfold parse_version
    cases hs : searchVersion content.data with
    | none => simp
    | some r => simp
  · intro i g rest hnone hm
    unfold parse_version
    rw [searchVersion_first i content.data hnone hm]

/-- Witness for C8: the pattern matches at position 0 of a concrete file. -/
theorem parse_version_error_iff_no_match_witness :
    parse_version "__version__ = \x221.2.3\x22" = Except.ok (String.mk "1.2.3".data) :=
  (parse_version_error_iff_no_match "__version__ = \x221.2.3\x22").2 0 "1.2.3".data []
    (fun j hj => absurd hj (Nat.not_lt_zero j)) rfl

/-! ## Nightly rewriting (C5) -/

theorem dropLit_append (l rest : List Char) : dropLit l (l ++ rest) = some rest := by
  induction l with
  | nil => rfl
  | cons a as ih => simp [dropLit, ih]

/-- The lazy group consumes exactly a quote-free, newline-free non-empty run
up to the next quote. -/
theorem grabLazy_cons (c : Char) (cs : List Char) :
    grabLazy (c :: cs) =
      if c == '\n' then none
      else
        match cs with
        | [] => none
        | d :: ds =>
          if isQuoteChar d then some ([c], ds)
          else
            match grabLazy cs with
            | some (g, r) => some (c :: g, r)
            | none => none := rfl

theorem grabLazy_clean {g : List Char} (rest : List Char) (hne : g ≠ [])
    (hok : ∀ c ∈ g, isQuoteChar c = false ∧ c ≠ '\n') :
    grabLazy (g ++ '\x22' :: rest) = some (g, rest) := by
  induction g with
  | nil => exact absurd rfl hne
  | cons c g' ih =>
    obtain ⟨hcq, hcn⟩ := hok c (List.mem_cons_self c g')
    cases g' with
    | nil =>
      show grabLazy (c :: '\x22' :: rest) = some ([c], rest)
      rw [grabLazy_cons]
      rw [if_neg (by simp [hcn])]
      dsimp only
      rw [if_pos (show isQuoteChar '\x22' = true from rfl)]
    | cons c' g'' =>
      obtain ⟨hcq', _⟩ := hok c' (List.mem_cons_of_mem c (List.mem_cons_self c' g''))
      have hrec : grabLazy ((c' :: g'') ++ '\x22' :: rest) = some (c' :: g'', rest) :=
        ih (by simp) (fun d hd => hok d (List.mem_cons_of_mem c hd))
      rw [List.cons_append] at hrec
      show grabLazy (c :: ((c' :: g'') ++ '\x22' :: rest)) = some (c :: c' :: g'', rest)
      rw [List.cons_append]
      rw [grabLazy_cons]
      rw [if_neg (by simp [hcn])]
      dsimp only
      rw [if_neg (by simp [hcq']), hrec]

/-- On a file of the canonical shape `__version__ = "v"…`, the pattern
matches at position 0 and captures exactly `v`. -/
theorem matchVersionAt_decl (v : String) (rest : List Char) (hne : v.data ≠ [])
    (hok : ∀ c ∈ v.data, isQuoteChar c = false ∧ c ≠ '\n') :
    matchVersionAt ("__version__ = \x22".data ++ (v.data ++ '\x22' :: rest))
      = some (v.data, rest) := by
  have hkey : matchVersionAt ("__version__ = \x22".data ++ (v.data ++ '\x22' :: rest))
      = grabLazy (v.data ++ '\x22' :: rest) := rfl
  rw [hkey]
  exact grabLazy_clean rest hne hok

/-- The pattern `name="keras-cv"` cannot match starting inside a non-empty
quote-free prefix: its sixth character is a quote (so it cannot lie wholly in
the prefix) and no proper shift of the pattern agrees with its own head
`'n'`. -/
theorem setup_pat_not_prefix_mid (s rest : List Char) (hne : s ≠ [])
    (hq : ∀ ch ∈ s, ch ≠ '\x22') :
    setup_name_pat.data.isPrefixOf (s ++ setup_name_pat.data ++ rest) = false := by
  cases hp : setup_name_pat.data.isPrefixOf (s ++ setup_name_pat.data ++ rest) with
  | false => rfl
  | true =>
    exfalso
    have hpre : setup_name_pat.data <+: s ++ setup_name_pat.data ++ rest :=
      List.isPrefixOf_iff_prefix.mp hp
    obtain ⟨t, ht⟩ := hpre
    have hplen : setup_name_pat.data.length = 15 := rfl
    have h1 : 0 < s.length := List.length_pos.mpr hne
    by_cases hlen : 6 ≤ s.length
    · have e := congrArg (fun l : List Char => l[5]?) ht
      simp only [] at e
      rw [List.getElem?_append_left (show (5 : Nat) < setup_name_pat.data.length by omega),
          List.getElem?_append_left (show (5 : Nat) < (s ++ setup_name_pat.data).length by
            simp; omega),
          List.getElem?_append_left (show (5 : Nat) < s.length by omega)] at e
      have h5v : setup_name_pat.data[5]? = some '\x22' := rfl
      rw [h5v] at e
      exact hq '\x22' (List.getElem?_mem e.symm) rfl
    · have e := congrArg (fun l : List Char => l[s.length]?) ht
      simp only [] at e
      rw [List.getElem?_append_left (show s.length < setup_name_pat.data.length by
            rw [hplen]; omega),
          List.getElem?_append_left (show s.length < (s ++ setup_name_pat.data).length by
            simp [hplen]),
          List.getElem?_append_right (Nat.le_refl s.length)] at e
      simp only [Nat.sub_self] at e
      have hn : setup_name_pat.data[0]? = some 'n' := rfl
      rw [hn] at e
      have h5 : s.length ≤ 5 := by omega
      set k := s.length with hk
      interval_cases k <;> exact absurd e (by decide)

/-- `str.replace` on a setup file of the shape `pre ++ name="keras-cv" ++
post` with a quote-free `pre`: the first occurrence is replaced in place and
scanning continues in `post`. -/
theorem replaceAll_setup (post : List Char) : ∀ pre : List Char,
    (∀ ch ∈ pre, ch ≠ '\x22') →
    replaceAll setup_name_pat.data setup_name_repl.data
        (pre ++ setup_name_pat.data ++ post)
      = pre ++ setup_name_repl.data
          ++ replaceAll setup_name_pat.data setup_name_repl.data post := by
  intro pre
  induction pre with
  | nil =>
    intro _
    simp only [List.nil_append]
    have hne : setup_name_pat.data ≠ [] := by decide
    have hpp : setup_name_pat.data.isPrefixOf
        ('n' :: ("ame=\x22keras-cv\x22".data ++ post)) = true :=
      List.isPrefixOf_iff_prefix.mpr (List.prefix_append setup_name_pat.data post)
    show replaceAll setup_name_pat.data setup_name_repl.data
        ('n' :: ("ame=\x22keras-cv\x22".data ++ post)) = _
    rw [replaceAll_cons_pos setup_name_repl.data hne hpp]
    have hdrop : List.drop setup_name_pat.data.length
        ('n' :: ("ame=\x22keras-cv\x22".data ++ post)) = post := by
      rw [show ('n' :: ("ame=\x22keras-cv\x22".data ++ post))
            = setup_name_pat.data ++ post from rfl]
      exact List.drop_left _ _
    rw [hdrop]
  | cons c pre' ih =>
    intro hq
    have hcq : c ≠ '\x22' := hq c (List.mem_cons_self c pre')
    have hS := setup_pat_not_prefix_mid (c :: pre') post (by simp) hq
    have hneg : ¬ (setup_name_pat.data ≠ []
        ∧ setup_name_pat.data.isPrefixOf
            (c :: (pre' ++ setup_name_pat.data ++ post))) := by
      rintro ⟨-, hpref⟩
      rw [show (c :: (pre' ++ setup_name_pat.data ++ post))
            = (c :: pre') ++ setup_name_pat.data ++ post by simp] at hpref
      rw [hS] at hpref
      exact absurd hpref (by simp)
    have hgoal : (c :: pre') ++ setup_name_pat.data ++ post
        = c :: (pre' ++ setup_name_pat.data ++ post) := by simp
    rw [hgoal, replaceAll_cons_neg setup_name_repl.data hneg,
        ih (fun d hd => hq d (List.mem_cons_of_mem c hd))]
    simp

/-- Parsing the canonical version file `__version__ = "v"` returns `v`. -/
theorem parse_version_decl (v : String) (hne : v.data ≠ [])
    (hok : ∀ c ∈ v.data, isQuoteChar c = false ∧ c ≠ '\n') :
    parse_version ("__version__ = \x22" ++ v ++ "\x22") = Except.ok v := by
  have hdata : ("__version__ = \x22" ++ v ++ "\x22").data
      = "__version__ = \x22".data ++ (v.data ++ '\x22' :: []) := by
    rw [String.data_append ("__version__ = \x22" ++ v) "\x22",
        String.data_append "__version__ = \x22" v, List.append_assoc]
  have hm : matchVersionAt (("__version__ = \x22" ++ v ++ "\x22").data.drop 0)
      = some (v.data, []) := by
    rw [List.drop_zero, hdata]
    exact matchVersionAt_decl v [] hne hok
  have hs := searchVersion_first 0 ("__version__ = \x22" ++ v ++ "\x22").data
    (fun j hj => absurd hj (Nat.not_lt_zero j)) hm
  unfold parse_version
  rw [hs]

/-- `re.sub` on the canonical version file replaces the whole content with
the replacement text. -/
theorem subVersion_decl (repl : List Char) (v : String) (hne : v.data ≠ [])
    (hok : ∀ c ∈ v.data, isQuoteChar c = false ∧ c ≠ '\n') :
    subVersion repl ("__version__ = \x22" ++ v ++ "\x22").data = repl := by
  have hdata : ("__version__ = \x22" ++ v ++ "\x22").data
      = '_' :: ("_version__ = \x22".data ++ (v.data ++ '\x22' :: [])) := by
    rw [String.data_append ("__version__ = \x22" ++ v) "\x22",
        String.data_append "__version__ = \x22" v, List.append_assoc]
    rfl
  have hm : matchVersionAt ('_' :: ("_version__ = \x22".data ++ (v.data ++ '\x22' :: [])))
      = some (v.data, []) := by
    rw [show ('_' :: ("_version__ = \x22".data ++ (v.data ++ '\x22' :: [])))
          = "__version__ = \x22".data ++ (v.data ++ '\x22' :: []) from rfl]
    exact matchVersionAt_decl v [] hne hok
  rw [hdata, subVersion_cons_match repl hm, subVersion_nil, List.append_nil]

/-- `Nat.digitChar` of a reduced digit is a decimal digit. -/
theorem digitChar_mod_isDigit (x : Nat) : (Nat.digitChar (x % 10)).isDigit = true := by
  have h : x % 10 < 10 := Nat.mod_lt x (by omega)
  set y := x % 10 with hy
  interval_cases y <;> rfl

/-- The rendered timestamp has exactly ten decimal-digit characters. -/
theorem strftime_YmdH_shape (d : DateTime) :
    (strftime_YmdH d).length = 10 ∧ (strftime_YmdH d).data.all Char.isDigit = true := by
  constructor
  · rfl
  · show (four_digits d.year ++ two_digits d.month ++ two_digits d.day
        ++ two_digits d.hour).all Char.isDigit = true
    simp [four_digits, two_digits, digitChar_mod_isDigit]

/-- C5.  A nightly run of `nightly_overrides` over a canonical version file
`__version__ = "v"` and a setup file `pre ++ name="keras-cv" ++ post` (with a
quote-free `pre` and a four-digit year on the clock): the version string in
effect during the build is `v ++ ".dev" ++ ts` where `ts` is the
`%Y%m%d%H` timestamp — ten decimal digits, hour resolution; the version
file's declaration is rewritten in place to exactly that string; and the
setup file's `name="keras-cv"` is rewritten to `name="keras-cv-nightly"`. -/
theorem nightly_overrides_rewrites (v : String) (d : DateTime) (preL postL : List Char)
    (body : BodyOutcome)
    (hne : v.data ≠ [])
    (hok : ∀ c ∈ v.data, isQuoteChar c = false ∧ c ≠ '\n')
    (hpre : ∀ ch ∈ preL, ch ≠ '\x22')
    (hyear : 1000 ≤ d.year ∧ d.year < 10000) :
    ∃ run : NORun,
      nightly_overrides ("__version__ = \x22" ++ v ++ "\x22")
          (String.mk (preL ++ setup_name_pat.data ++ postL)) true (strftime_YmdH d) body
        = Except.ok run
      ∧ run.yielded = v ++ ".dev" ++ strftime_YmdH d
      ∧ run.duringVersion
          = "__version__ = \x22" ++ (v ++ ".dev" ++ strftime_YmdH d) ++ "\x22"
      ∧ run.duringSetup
          = String.mk (preL ++ setup_name_repl.data
              ++ replaceAll setup_name_pat.data setup_name_repl.data postL)
      ∧ (strftime_YmdH d).length = 10
      ∧ (strftime_YmdH d).data.all Char.isDigit = true := by
  have hp := parse_version_decl v hne hok
  unfold nightly_overrides
  rw [hp]
  dsimp only [if_true]
  refine ⟨_, rfl, rfl, ?_, ?_, (strftime_YmdH_shape d).1, (strftime_YmdH_shape d).2⟩
  · show String.mk (subVersion
        (version_decl_repl (v ++ ".dev" ++ strftime_YmdH d)).data
        ("__version__ = \x22" ++ v ++ "\x22").data) = _
    rw [subVersion_decl _ v hne hok]
    rfl
  · show String.mk (replaceAll setup_name_pat.data setup_name_repl.data
        (String.mk (preL ++ setup_name_pat.data ++ postL)).data) = _
    rw [show (String.mk (preL ++ setup_name_pat.data ++ postL)).data
          = preL ++ setup_name_pat.data ++ postL from rfl]
    rw [replaceAll_setup postL preL hpre]

/-- Witness for C5 at a concrete nightly run. -/
theorem nightly_overrides_rewrites_witness :
    ∃ run : NORun,
      nightly_overrides ("__version__ = \x22" ++ "0.9.0" ++ "\x22")
          (String.mk ("setup(".data ++ setup_name_pat.data ++ ")".data)) true
          (strftime_YmdH ⟨2026, 10, 12, 9⟩) BodyOutcome.ok
        = Except.ok run
      ∧ run.yielded = "0.9.0" ++ ".dev" ++ strftime_YmdH ⟨2026, 10, 12, 9⟩
      ∧ run.duringVersion
          = "__version__ = \x22" ++ ("0.9.0" ++ ".dev"
              ++ strftime_YmdH ⟨2026, 10, 12, 9⟩) ++ "\x22"
      ∧ run.duringSetup
          = String.mk ("setup(".data ++ setup_name_repl.data
              ++ replaceAll setup_name_pat.data setup_name_repl.data ")".data)
      ∧ (strftime_YmdH ⟨2026, 10, 12, 9⟩).length = 10
      ∧ (strftime_YmdH ⟨2026, 10, 12, 9⟩).data.all Char.isDigit = true :=
  nightly_overrides_rewrites "0.9.0" ⟨2026, 10, 12, 9⟩ "setup(".data ")".data
    BodyOutcome.ok (by decide) (by decide) (by decide) (by decide)
